import Mathlib

/-
Verification development for the dependency-resolution engine of
imqueue/graphql-dependency (src/src/dependency.ts).

The engine is shallowly embedded: JavaScript values are modelled by the
inductive `Value`; JS objects used as maps become association lists whose
key enumeration follows entry insertion order (the development only relies
on enumeration where the order is irrelevant or the map is a singleton);
numeric identifiers are `Int` (the identifier domain of the scenarios);
loose equality `==` is rendered by `jsEq`, the ECMAScript abstract-equality
algorithm restricted to this value domain; truthiness by `truthy`.
External collaborators are modelled at their interface boundary: the
`signature` hash from the rpc package is rendered as the injective tuple
`HashKey` of (type name, method, arguments); GraphQL schema types are the
`GType`/`GField`/`Schema` records below.  Asynchronous execution is
rendered by the deterministic event-loop order of the source: within one
fan-out batch every task first runs its synchronous part up to its first
await (in push order), then the continuations run; sibling subtree
descents are serialized (no settled claim depends on their interleaving).
In-place mutation of shared child entities by recursive calls is rendered
by writing the recursion result back into the parent fields the children
were collected from.  `incrementalLoad` recursion is bounded by explicit
fuel: a run that returns `Res.out` for every fuel amount does not
terminate.
-/

set_option autoImplicit false

namespace GD

/-- JavaScript values as used by the engine: null/undefined (conflated),
integers, strings, booleans, arrays and plain objects. -/
inductive Value where
  | vNull
  | vNum (n : Int)
  | vStr (s : String)
  | vBool (b : Bool)
  | vArr (xs : List Value)
  | vObj (fs : List (String × Value))
  deriving Repr

open Value

mutual
def decEqV : (a b : Value) → Decidable (a = b)
  | vNull, vNull => isTrue rfl
  | vNull, vNum _ => isFalse (fun h => Value.noConfusion h)
  | vNull, vStr _ => isFalse (fun h => Value.noConfusion h)
  | vNull, vBool _ => isFalse (fun h => Value.noConfusion h)
  | vNull, vArr _ => isFalse (fun h => Value.noConfusion h)
  | vNull, vObj _ => isFalse (fun h => Value.noConfusion h)
  | vNum _, vNull => isFalse (fun h => Value.noConfusion h)
  | vNum a, vNum b =>
      if h : a = b then isTrue (by rw [h])
      else isFalse (fun he => by cases he; exact h rfl)
  | vNum _, vStr _ => isFalse (fun h => Value.noConfusion h)
  | vNum _, vBool _ => isFalse (fun h => Value.noConfusion h)
  | vNum _, vArr _ => isFalse (fun h => Value.noConfusion h)
  | vNum _, vObj _ => isFalse (fun h => Value.noConfusion h)
  | vStr _, vNull => isFalse (fun h => Value.noConfusion h)
  | vStr _, vNum _ => isFalse (fun h => Value.noConfusion h)
  | vStr a, vStr b =>
      if h : a = b then isTrue (by rw [h])
      else isFalse (fun he => by cases he; exact h rfl)
  | vStr _, vBool _ => isFalse (fun h => Value.noConfusion h)
  | vStr _, vArr _ => isFalse (fun h => Value.noConfusion h)
  | vStr _, vObj _ => isFalse (fun h => Value.noConfusion h)
  | vBool _, vNull => isFalse (fun h => Value.noConfusion h)
  | vBool _, vNum _ => isFalse (fun h => Value.noConfusion h)
  | vBool _, vStr _ => isFalse (fun h => Value.noConfusion h)
  | vBool a, vBool b =>
      if h : a = b then isTrue (by rw [h])
      else isFalse (fun he => by cases he; exact h rfl)
  | vBool _, vArr _ => isFalse (fun h => Value.noConfusion h)
  | vBool _, vObj _ => isFalse (fun h => Value.noConfusion h)
  | vArr _, vNull => isFalse (fun h => Value.noConfusion h)
  | vArr _, vNum _ => isFalse (fun h => Value.noConfusion h)
  | vArr _, vStr _ => isFalse (fun h => Value.noConfusion h)
  | vArr _, vBool _ => isFalse (fun h => Value.noConfusion h)
  | vArr xs, vArr ys =>
      match decEqLV xs ys with
      | isTrue h => isTrue (by rw [h])
      | isFalse h => isFalse (fun he => by cases he; exact h rfl)
  | vArr _, vObj _ => isFalse (fun h => Value.noConfusion h)
  | vObj _, vNull => isFalse (fun h => Value.noConfusion h)
  | vObj _, vNum _ => isFalse (fun h => Value.noConfusion h)
  | vObj _, vStr _ => isFalse (fun h => Value.noConfusion h)
  | vObj _, vBool _ => isFalse (fun h => Value.noConfusion h)
  | vObj _, vArr _ => isFalse (fun h => Value.noConfusion h)
  | vObj xs, vObj ys =>
      match decEqLSV xs ys with
      | isTrue h => isTrue (by rw [h])
      | isFalse h => isFalse (fun he => by cases he; exact h rfl)

def decEqLV : (a b : List Value) → Decidable (a = b)
  | [], [] => isTrue rfl
  | [], _ :: _ => isFalse (fun h => List.noConfusion h)
  | _ :: _, [] => isFalse (fun h => List.noConfusion h)
  | x :: xs, y :: ys =>
      match decEqV x y with
      | isFalse h => isFalse (fun he => by cases he; exact h rfl)
      | isTrue h1 =>
        match decEqLV xs ys with
        | isTrue h2 => isTrue (by rw [h1, h2])
        | isFalse h2 => isFalse (fun he => by cases he; exact h2 rfl)

def decEqLSV : (a b : List (String × Value)) → Decidable (a = b)
  | [], [] => isTrue rfl
  | [], _ :: _ => isFalse (fun h => List.noConfusion h)
  | _ :: _, [] => isFalse (fun h => List.noConfusion h)
  | (k, x) :: xs, (l, y) :: ys =>
      if hk : k = l then
        match decEqV x y with
        | isFalse h => isFalse (fun he => by cases he; exact h rfl)
        | isTrue h1 =>
          match decEqLSV xs ys with
          | isTrue h2 => isTrue (by rw [hk, h1, h2])
          | isFalse h2 => isFalse (fun he => by cases he; exact h2 rfl)
      else isFalse (fun he => by cases he; exact hk rfl)
end

instance : DecidableEq Value := decEqV

/-- JS truthiness of a value. -/
def truthy : Value → Bool
  | vNull => false
  | vNum n => n != 0
  | vStr s => s != ""
  | vBool b => b
  | vArr _ => true
  | vObj _ => true

/-- `Array.isArray(source) ? source : [source]` -/
def toArr : Value → List Value
  | vArr xs => xs
  | v => [v]

mutual
/-- ECMAScript ToString on this value domain (undefined/null rendered as
the property-key coercion `"undefined"`; arrays join with `","`,
objects give `"[object Object]"`). -/
def jsToString : Value → String
  | vNull => "undefined"
  | vNum n => toString n
  | vStr s => s
  | vBool b => if b then "true" else "false"
  | vArr xs => joinArr xs
  | vObj _ => "[object Object]"

/-- `Array.prototype.join(",")`: null/undefined elements become `""`. -/
def joinArr : List Value → String
  | [] => ""
  | [x] => (match x with | vNull => "" | v => jsToString v)
  | x :: y :: rest =>
      (match x with | vNull => "" | v => jsToString v) ++ "," ++
        joinArr (y :: rest)
end

/-- The value of a decimal digit character, if it is one. -/
def digitVal (c : Char) : Option Nat :=
  if 48 ≤ c.toNat && c.toNat ≤ 57 then some (c.toNat - 48) else none

/-- Accumulate decimal digits. -/
def digitsToNatGo : List Char → Nat → Option Nat
  | [], acc => some acc
  | c :: rest, acc =>
    match digitVal c with
    | some d => digitsToNatGo rest (acc * 10 + d)
    | none => none

/-- A non-empty all-digit character list as a number (none models NaN). -/
def digitsToNat : List Char → Option Nat
  | [] => none
  | c :: rest => digitsToNatGo (c :: rest) 0

/-- ECMAScript ToNumber of a string: none models NaN.  The model covers
optional sign plus decimal digits, and the empty string (which is 0). -/
def strToNum (s : String) : Option Int :=
  match s.data with
  | [] => some 0
  | c :: rest =>
    if c = '-' then
      match digitsToNat rest with
      | some n => some (-(n : Int))
      | none => none
    else
      match digitsToNat (c :: rest) with
      | some n => some ((n : Int))
      | none => none

/-- Booleans are compared via ToNumber by abstract equality. -/
def primNorm : Value → Value
  | vBool b => vNum (if b then 1 else 0)
  | v => v

/-- Loose equality of two primitives (null, number, string, boolean). -/
def primEq (a b : Value) : Bool :=
  match primNorm a, primNorm b with
  | vNull, vNull => true
  | vNum x, vNum y => x == y
  | vStr x, vStr y => x == y
  | vNum x, vStr s => match strToNum s with | some y => x == y | none => false
  | vStr s, vNum y => match strToNum s with | some x => x == y | none => false
  | _, _ => false

/-- ToPrimitive of an object/array value, as a string. -/
def toPrim : Value → Value
  | vArr xs => vStr (joinArr xs)
  | vObj _ => vStr "[object Object]"
  | v => v

/-- ECMAScript abstract (loose) equality `==` on this domain.  Two
distinct object/array values are reference-unequal (every comparison made
by the engine compares distinct heap objects). -/
def jsEq (a b : Value) : Bool :=
  match a, b with
  | vArr _, vArr _ => false
  | vArr _, vObj _ => false
  | vObj _, vArr _ => false
  | vObj _, vObj _ => false
  | vArr _, _ => primEq (toPrim a) b
  | vObj _, _ => primEq (toPrim a) b
  | _, vArr _ => primEq a (toPrim b)
  | _, vObj _ => primEq a (toPrim b)
  | _, _ => primEq a b

/-- Association-list lookup (first occurrence), modelling `m[k]` on a JS
object used as a map; absent keys give `undefined`. -/
def lookupS : List (String × Value) → String → Option Value
  | [], _ => none
  | (k, v) :: rest, key => if k = key then some v else lookupS rest key

/-- `m[k] = v` on a JS object: overwrite in place or append. -/
def setS : List (String × Value) → String → Value → List (String × Value)
  | [], key, v => [(key, v)]
  | (k, w) :: rest, key, v =>
      if k = key then (k, v) :: rest else (k, w) :: setS rest key v

/-- `Object.keys` of a JS object used as a map (insertion order). -/
def keysS (m : List (String × Value)) : List String := m.map (·.1)

/-- `Object.assign(target, source)` on two map objects. -/
def assignS (target source : List (String × Value)) :
    List (String × Value) :=
  source.foldl (fun t e => setS t e.1 e.2) target

/-- `obj[f]` field access; non-objects and absent fields give undefined. -/
def getF : Value → String → Value
  | vObj fs, f => (lookupS fs f).getD vNull
  | _, _ => vNull

/-- `f in obj` / `typeof obj.f !== "undefined"`: field presence. -/
def hasF : Value → String → Bool
  | vObj fs, f => (lookupS fs f).isSome
  | _, _ => false

/-- `obj[f] = v`; assignment to a primitive is a silent no-op (non-strict
mode). -/
def setF : Value → String → Value → Value
  | vObj fs, f, v => vObj (setS fs f v)
  | w, _, _ => w

/-- `Object.assign(target, source)` on values: copies own enumerable
properties of an object source; primitive/null sources contribute
nothing (booleans and numbers have no own properties). -/
def objAssign : Value → Value → Value
  | vObj fs, vObj gs => vObj (assignS fs gs)
  | t, _ => t

/-- Entries of a field-tree object (`Object.keys` plus lookup); primitives
have no enumerable own properties in the trees the engine walks. -/
def objEntries : Value → List (String × Value)
  | vObj fs => fs
  | _ => []

/-- GraphQL type wrappers (`GraphQLObjectType`/scalars by name,
`GraphQLList`, `GraphQLNonNull`). -/
inductive GType where
  | named (n : String)
  | list (t : GType)
  | nonNull (t : GType)
  deriving DecidableEq, Repr

/-- A `GraphQLField`: its name and its (possibly wrapped) type. -/
structure GField where
  name : String
  type : GType
  deriving DecidableEq, Repr

/-- `GraphQLDependency.gqlType`: unwraps exactly one List/NonNull layer. -/
def gqlTypeOf (f : GField) : GType :=
  match f.type with
  | GType.list t => t
  | GType.nonNull t => t
  | t => t

/-- `option.as.type instanceof GraphQLList`. -/
def isListType (f : GField) : Bool :=
  match f.type with
  | GType.list _ => true
  | _ => false

/-- `type.getFields()` for every type of the schema: type name to field
map (field name to `GraphQLField`). -/
abbrev Schema := List (String × List (String × GField))

/-- `this.type.getFields()`. -/
def schemaFields (sch : Schema) (ty : String) : List (String × GField) :=
  match sch.find? (fun e => e.1 = ty) with
  | some e => e.2
  | none => []

/-- Field-map lookup `graphqlFields[field]`. -/
def gqlField (gql : List (String × GField)) (f : String) : Option GField :=
  match gql.find? (fun e => e.1 = f) with
  | some e => some e.2
  | none => none

/-- `DependencyOptions`: destination field `as` plus the
`filterKey -> GraphQLField` map `filter`. -/
structure DependencyOptions where
  as : GField
  filter : List (String × GField)
  deriving DecidableEq, Repr

/-- `DataLoader`: (context, filter, fields) to a list of entities.  The
loader is an external bulk fetch, modelled as a pure function of its
arguments. -/
abbrev Loader := Value → Value → Value → List Value

/-- `DataInitializer`: (context, result, fields) to an id-keyed map of
partial records; `none` models a null/undefined result. -/
abbrev Initializer := Value → Value → Value → Option (List (String × Value))

/-- A `GraphQLDependency` node: per-type configuration.  `initFields` is
`none` until `defineInitializer` runs (the JS member starts out
undefined); `options` is keyed by the child dependency's type name (the
JS map is keyed by the per-type singleton node). -/
structure DepNode where
  tyName : String
  loader : Option Loader
  init : Option Initializer
  initFields : Option (List GField)
  initFieldNames : List String
  options : List (String × List DependencyOptions)

/-- A fresh node as built by the constructor. -/
def mkNode (ty : String) : DepNode :=
  { tyName := ty, loader := none, init := none, initFields := none,
    initFieldNames := [], options := [] }

/-- `defineLoader`. -/
def defineLoader (node : DepNode) (l : Loader) : DepNode :=
  { node with loader := some l }

/-- `defineInitializer(initializer, ...fields)`: the rest parameter is
always an array, so `initFields` always becomes `some fs` (an empty list
when no trigger fields are passed). -/
def defineInitializer (node : DepNode) (ini : Initializer)
    (fs : List GField) : DepNode :=
  { node with
    init := some ini
    initFields := some fs
    initFieldNames := fs.map (fun f => f.name) }

/-- `require(child, ...options)`: replaces the options list registered for
the child type. -/
def require (node : DepNode) (childTy : String)
    (opts : List DependencyOptions) : DepNode :=
  { node with options :=
      match node.options.find? (fun e => e.1 = childTy) with
      | some _ => node.options.map
          (fun e => if e.1 = childTy then (e.1, opts) else e)
      | none => node.options ++ [(childTy, opts)] }

/-- `this.options.get(dep)`. -/
def optionsFor (node : DepNode) (childTy : String) :
    Option (List DependencyOptions) :=
  match node.options.find? (fun e => e.1 = childTy) with
  | some e => some e.2
  | none => none

/-- The process-wide dependency registry `GraphQLDependency.deps`,
keyed by type (type names are unique in a schema). -/
abbrev Reg := List (String × DepNode)

/-- `GraphQLDependency.deps.get(type)` after `gqlType` unwrapping: only a
named type can be a registry key. -/
def depOf (reg : Reg) (t : GType) : Option DepNode :=
  match t with
  | GType.named n =>
      (match reg.find? (fun e => e.1 = n) with
       | some e => some e.2
       | none => none)
  | _ => none

/-- The environment of one process: schema plus registry. -/
structure Env where
  sch : Schema
  reg : Reg

/-- `ResolveMethod.INITIALIZER = 0`, `ResolveMethod.LOADER = 1`. -/
def methodInitializer : Nat := 0
def methodLoader : Nat := 1

/-- A call signature: `signature(entity.name, method + '', args)` from the
external rpc package, modelled as the injective tuple of its inputs. -/
structure HashKey where
  tyName : String
  method : Nat
  args : Value
  deriving DecidableEq, Repr

/-- `GraphQLDependency.hash`. -/
def hashSig (tyName : String) (method : Nat) (args : Value) : HashKey :=
  { tyName := tyName, method := method, args := args }

/-- `ResolutionCacheData`: merged fields, id-keyed entity map, and the
call-memoization table.  A memo value of `none` models a stored
undefined initializer result (which the truthiness re-check rejects). -/
structure RCData where
  fields : Value
  data : List (String × Value)
  calls : List (HashKey × Option (List (String × Value)))
  deriving DecidableEq, Repr

/-- The per-call `ResolutionCache`, keyed by type name. -/
abbrev Cache := List (String × RCData)

/-- `cache.get(type)` (first — and only — occurrence of the key). -/
def cacheGet : Cache → String → Option RCData
  | [], _ => none
  | (k, d) :: rest, ty => if k = ty then some d else cacheGet rest ty

/-- `cache.set(type, data)`: overwrite in place or append. -/
def cacheSet : Cache → String → RCData → Cache
  | [], ty, d => [(ty, d)]
  | (k, w) :: rest, ty, d =>
      if k = ty then (k, d) :: rest else (k, w) :: cacheSet rest ty d

/-- `calls[hash]` lookup. -/
def callsGet : List (HashKey × Option (List (String × Value))) → HashKey →
    Option (Option (List (String × Value)))
  | [], _ => none
  | (k, v) :: rest, h => if k = h then some v else callsGet rest h

/-- `calls[hash] = v`: overwrite in place or append. -/
def callsSet : List (HashKey × Option (List (String × Value))) → HashKey →
    Option (List (String × Value)) →
    List (HashKey × Option (List (String × Value)))
  | [], h, v => [(h, v)]
  | (k, w) :: rest, h, v =>
      if k = h then (k, v) :: rest else (k, w) :: callsSet rest h v

/-- `GraphQLDependency.makeCachedData`: index a source under its id
(object keys are strings, so the id is ToString-coerced). -/
def makeCachedData (source : Value) (m : List (String × Value)) :
    List (String × Value) :=
  if truthy source then
    (toArr source).foldl
      (fun acc item => setS acc (jsToString (getF item "id")) item) m
  else m

mutual
/-- `GraphQLDependency.ensureIds`: add `id: false` to every truthy nested
structure missing it (the id is appended, matching JS insertion order —
the appended `id: false` entry is itself skipped by the falsy-value
check, so processing the original entries and then appending is the
same); assignment to a primitive subtree is a silent no-op. -/
def ensureIds : Value → Value
  | vObj fs =>
      vObj (ensureIdsList fs ++
        (if (lookupS fs "id").isSome then [] else [("id", vBool false)]))
  | v => v

def ensureIdsList : List (String × Value) → List (String × Value)
  | [] => []
  | (k, v) :: rest =>
      (k, if truthy v then ensureIds v else v) :: ensureIdsList rest
end

/-- The key loop of `isEmptyArg` (early `return false` rendered by the
recursion stopping with `false`). -/
def emptyScan : List (String × Value) → Bool
  | [] => true
  | (_, v) :: rest =>
      match v with
      | vArr xs => if xs.length ≠ 0 then false
                   else if truthy (vArr xs) then false else emptyScan rest
      | w => if truthy w then false else emptyScan rest

/-- `GraphQLDependency.isEmptyArg`: the verbatim check — an entry that is
a non-empty array is non-empty; otherwise any truthy entry (which
includes an EMPTY array, since arrays are truthy objects) is non-empty. -/
def isEmptyArg (filter : Value) : Bool :=
  if ¬ truthy filter then true
  else match filter with
    | vObj fs => emptyScan fs
    | v => truthy v

/-- `[...new Set(list)]`: deduplicate keeping first occurrences (Set uses
SameValueZero, i.e. strict sameness of our structural values). -/
def dedupFirst (xs : List Value) : List Value :=
  go xs []
where
  go : List Value → List Value → List Value
    | [], _ => []
    | x :: rest, seen =>
        if x ∈ seen then go rest seen else x :: go rest (x :: seen)

/-- `GraphQLDependency.childSource`: the flattened child instances under
`field` of the current source instances. -/
def childSource (source : Value) (field : String) : List Value :=
  if ¬ truthy source then []
  else if field = "" then toArr source
  else (toArr source).foldl
    (fun acc item =>
      if truthy (getF item field) then
        acc ++ (match getF item field with
                | vArr xs => xs
                | v => [v])
      else acc) []

/-- `makeCallArgs`: collect, per filter key, the (flattened, deduplicated)
values of the named parent field; for the `id` key drop every identifier
already present (truthy) in the child cache's data map.  `none` models
the thrown TypeError on a falsy source. -/
def makeCallArgs (source : Value) (filter : List (String × GField))
    (cacheData : List (String × Value)) : Option Value :=
  if ¬ truthy source then none
  else
    let src := toArr source
    some (vObj (filter.map (fun e =>
      let collected := dedupFirst (src.foldl
        (fun res item =>
          res ++ (match getF item e.2.name with
                  | vArr xs => xs
                  | v => [v])) [])
      let final := if e.1 = "id" then
          collected.filter (fun idv =>
            ¬ truthy ((lookupS cacheData (jsToString idv)).getD vNull))
        else collected
      (e.1, vArr final))))

/-- The `{dst, src}` mapping configuration derived from `option.filter`. -/
structure FromCfg where
  dst : String
  src : String
  deriving DecidableEq, Repr

/-- `Object.keys(option.filter).map(dst => ({dst, src: filter[dst].name}))`. -/
def fromOf (filter : List (String × GField)) : List FromCfg :=
  filter.map (fun e => { dst := e.1, src := e.2.name })

/-- `GraphQLDependency.dataMatcher`: does the entity stored under `id`
match `item`?  A list-valued parent field matches by loose membership;
a scalar parent field by loose equality. -/
def dataMatcher (data : List (String × Value)) (item : Value)
    (from_ : List FromCfg) (id : String) : Bool :=
  let node := (lookupS data id).getD vNull
  from_.all (fun cfg =>
    match getF item cfg.src with
    | vArr els => els.any (fun el => jsEq (getF node cfg.dst) el)
    | v => jsEq (getF node cfg.dst) v)

/-- `GraphQLDependency.mapList`. -/
def mapList (data : List (String × Value)) (item : Value)
    (from_ : List FromCfg) : List Value :=
  ((keysS data).filter (dataMatcher data item from_)).map
    (fun id => (lookupS data id).getD vNull)

/-- `GraphQLDependency.mapItem`: first matching entry, guarded by the
truthiness of the found KEY (an empty-string key yields undefined). -/
def mapItem (data : List (String × Value)) (item : Value)
    (from_ : List FromCfg) : Value :=
  match (keysS data).find? (dataMatcher data item from_) with
  | some id => if id ≠ "" then (lookupS data id).getD vNull else vNull
  | none => vNull

/-- `GraphQLDependency.mapDependencyData`: assign matches onto the
destination field of every source instance (the result of `mapList` is an
array, hence truthy, hence always assigned; a single match is assigned
only if truthy). -/
def mapDependencyData (source : Value) (data : List (String × Value))
    (option : DependencyOptions) : Value :=
  let dest := option.as.name
  let from_ := fromOf option.filter
  let isList := isListType option.as
  let step := fun item =>
    if isList then
      let nodes := mapList data item from_
      if truthy (vArr nodes) then setF item dest (vArr nodes) else item
    else
      let node := mapItem data item from_
      if truthy node then setF item dest node else item
  match source with
  | vArr xs => vArr (xs.map step)
  | v => step v

/-- The field loop of `waitForInit`. -/
def waitScan (env : Env) (node : DepNode)
    (gql : List (String × GField)) :
    List (String × Value) → Bool
  | [] => false
  | (f, v) :: rest =>
      if truthy v then
        match gqlField gql f with
        | some gf =>
          (match depOf env.reg (gqlTypeOf gf) with
           | some dep =>
             (match optionsFor node dep.tyName with
              | none => false
              | some opts =>
                if opts.any (fun o => o.filter.any
                    (fun e => e.2.name ∈ node.initFieldNames)) then true
                else waitScan env node gql rest)
           | none => waitScan env node gql rest)
        | none => waitScan env node gql rest
      else waitScan env node gql rest

/-- `waitForInit`: must the initializer complete before this level's
relation loads?  Follows the source verbatim, including the early
`return false` when a dependency field has no registered options and the
`!this.initFields` guard (reached only when `initFields` was never set). -/
def waitForInit (env : Env) (node : DepNode) (fields : Value)
    (gql : List (String × GField)) : Bool :=
  if node.init.isNone then false
  else match node.initFields with
    | none => true
    | some _ => waitScan env node gql (objEntries fields)

/-- Result of a fueled engine run: `out` models exhausted fuel (the run
needs deeper recursion), `err` a thrown error, `ok` a settled value. -/
inductive Res (α : Type) where
  | out
  | err (msg : String)
  | ok (a : α)
  deriving DecidableEq, Repr

/-- The merge loop at the end of `requestInitializer`: an item receives
its `initData[item.id]` entry only when the item and its id are truthy;
`Object.assign(item, undefined)` leaves the item unchanged. -/
def initMergeStep (m : List (String × Value)) (item : Value) : Value :=
  if truthy item && truthy (getF item "id") then
    objAssign item ((lookupS m (jsToString (getF item "id"))).getD vNull)
  else item

/-- `if (!initData) return source` plus the merge loop, preserving the
single/array shape of the source. -/
def mergeInitData (res : Option (List (String × Value))) (source : Value) :
    Value :=
  match res with
  | none => source
  | some m =>
    match source with
    | vArr xs => vArr (xs.map (initMergeStep m))
    | v => initMergeStep m v

/-- `requestInitializer`, run to completion (the blocking case): memoized
truthy call results skip the initializer invocation; otherwise the
initializer runs, is logged, and its (possibly null) result is memoized
when this type has a cache entry. -/
def requestInitializer (node : DepNode) (ini : Initializer)
    (ctx source fields : Value) (cache : Cache) (log : List HashKey) :
    Value × Cache × List HashKey :=
  let h := hashSig node.tyName methodInitializer fields
  match cacheGet cache node.tyName with
  | some tc =>
    (match callsGet tc.calls h with
     | some (some m) => (mergeInitData (some m) source, cache, log)
     | _ =>
       let res := ini ctx source fields
       let cache2 := cacheSet cache node.tyName
         { tc with calls := callsSet tc.calls h res }
       (mergeInitData res source, cache2, log ++ [h]))
  | none =>
    let res := ini ctx source fields
    (mergeInitData res source, cache, log ++ [h])

/-- A task of one fan-out batch (`promises.push(...)` order). -/
inductive BTask where
  | initT (ini : Initializer)
  | loadT (option : DependencyOptions) (dep : DepNode)

/-- A task suspended at its first await: the work left after the loader
or initializer call resolves. -/
inductive Pend where
  | pendLoad (depTy : String) (option : DependencyOptions) (h : HashKey)
      (rows : List Value)
  | pendInit (tyName : String) (h : HashKey)
      (res : Option (List (String × Value)))
  deriving DecidableEq, Repr

/-- The synchronous part of one batch task, up to its first await: for
`requestLoader` this is argument building, the empty-filter and memo
checks (both of which complete the task synchronously by mapping from
the accumulated data), and the loader invocation; for
`requestInitializer` the memo check or the initializer invocation.
Returns the updated source, an optional suspended continuation, and the
invocation-log delta. -/
def taskStart (node : DepNode) (fields ctx source : Value) (cache : Cache) :
    BTask → Res (Value × Option Pend × List HashKey)
  | BTask.initT ini =>
    let h := hashSig node.tyName methodInitializer fields
    (match cacheGet cache node.tyName with
     | some tc =>
       (match callsGet tc.calls h with
        | some (some m) => Res.ok (mergeInitData (some m) source, none, [])
        | _ =>
          Res.ok (source, some (Pend.pendInit node.tyName h
            (ini ctx source fields)), [h]))
     | none =>
       Res.ok (source, some (Pend.pendInit node.tyName h
         (ini ctx source fields)), [h]))
  | BTask.loadT option dep =>
    match cacheGet cache dep.tyName with
    | none => Res.err "resolution cache miss"
    | some dc =>
      match makeCallArgs source option.filter dc.data with
      | none => Res.err "Broken call chain, source expected to be value!"
      | some filter =>
        if isEmptyArg filter then
          Res.ok (mapDependencyData source dc.data option, none, [])
        else
          let h := hashSig dep.tyName methodLoader filter
          match callsGet dc.calls h with
          | some (some _) =>
            Res.ok (mapDependencyData source dc.data option, none, [])
          | _ =>
            match dep.loader with
            | none => Res.err "no loader"
            | some ld =>
              Res.ok (source,
                some (Pend.pendLoad dep.tyName option h
                  (ld ctx filter dc.fields)), [h])

/-- Run the synchronous parts of a batch in push order (a thrown error
stops the batch, as the synchronous push loop would). -/
def phaseOne (node : DepNode) (fields ctx : Value) (cache : Cache) :
    List BTask → Value → List HashKey →
    Res (Value × List HashKey × List Pend)
  | [], source, log => Res.ok (source, log, [])
  | t :: rest, source, log =>
    match taskStart node fields ctx source cache t with
    | Res.err m => Res.err m
    | Res.out => Res.out
    | Res.ok (source2, p, dlog) =>
      match phaseOne node fields ctx cache rest source2 (log ++ dlog) with
      | Res.err m => Res.err m
      | Res.out => Res.out
      | Res.ok (source3, log3, pends) =>
        Res.ok (source3, log3,
          (match p with | some pd => pd :: pends | none => pends))

/-- The continuation of a suspended task: a resolved loader call indexes
its rows by id, memoizes them under its signature, merges them into the
child type's accumulated data and maps onto the source; a resolved
initializer call memoizes its (possibly null) result and merges it into
the source instances. -/
def runPend (source : Value) (cache : Cache) : Pend → Value × Cache
  | Pend.pendLoad depTy option h rows =>
    let data := rows.foldl
      (fun m r => setS m (jsToString (getF r "id")) r) []
    (match cacheGet cache depTy with
     | none => (source, cache)
     | some dc =>
       let dc2 := { dc with
         calls := callsSet dc.calls h (some data)
         data := assignS dc.data data }
       (mapDependencyData source dc2.data option, cacheSet cache depTy dc2))
  | Pend.pendInit ty h res =>
    let cache2 :=
      match cacheGet cache ty with
      | some tc => cacheSet cache ty { tc with calls := callsSet tc.calls h res }
      | none => cache
    (mergeInitData res source, cache2)

/-- The relation fan-out of one `incrementalLoad` level: collect the
child dependencies (pushed whether or not a loader exists) and the
loader batch tasks (one per registered option, skipped entirely when the
child has no loader). -/
def levelScan (env : Env) (node : DepNode) (gql : List (String × GField)) :
    List (String × Value) → List (String × DepNode) × List BTask
  | [] => ([], [])
  | (f, v) :: rest =>
    let (children, tasks) := levelScan env node gql rest
    if truthy v then
      match gqlField gql f with
      | some gf =>
        (match depOf env.reg (gqlTypeOf gf) with
         | some dep =>
           ((f, dep) :: children,
            (match dep.loader with
             | none => tasks
             | some _ =>
               ((optionsFor node dep.tyName).getD []).map
                 (fun o => BTask.loadT o dep) ++ tasks))
         | none => (children, tasks))
      | none => (children, tasks)
    else (children, tasks)

/-- Distribute the recursion result for one relation field back into the
parent instances the children were collected from (the functional
rendering of JS in-place mutation of the shared child objects). -/
def wbItems : List Value → String → List Value → List Value × List Value
  | [], _, pool => ([], pool)
  | item :: items, f, pool =>
    if truthy (getF item f) then
      match getF item f with
      | vArr xs =>
        let taken := pool.take xs.length
        let (items2, pool2) := wbItems items f (pool.drop xs.length)
        (setF item f (vArr taken) :: items2, pool2)
      | _ =>
        (match pool with
         | c :: restPool =>
           let (items2, pool2) := wbItems items f restPool
           (setF item f c :: items2, pool2)
         | [] =>
           let (items2, pool2) := wbItems items f []
           (item :: items2, pool2))
    else
      let (items2, pool2) := wbItems items f pool
      (item :: items2, pool2)

/-- Write the recursed children back into the source (same shape). -/
def writeBack (source : Value) (f : String) (updated : List Value) : Value :=
  match source with
  | vArr xs => vArr (wbItems xs f updated).1
  | v => ((wbItems [v] f updated).1.headD v)

/-- Short-circuiting sequencing of fueled results. -/
def resThen {α β : Type} (r : Res α) (k : α → Res β) : Res β :=
  match r with
  | Res.out => Res.out
  | Res.err m => Res.err m
  | Res.ok a => k a

/-- The recursive-descent loop over one level's child dependencies
(serialized; the child fields are the child type's MERGED cache entry,
and the recursion result is written back into the parents).  The
recursive `incrementalLoad` is passed in as `rec`. -/
def incChildrenGo
    (rec : DepNode → Value → Value → Value → Cache → List HashKey →
      Res (Value × Cache × List HashKey)) (ctx : Value) :
    List (String × DepNode) → Value → Cache → List HashKey →
    Res (Value × Cache × List HashKey)
  | [], source, cache, log => Res.ok (source, cache, log)
  | (f, dep) :: rest, source, cache, log =>
    match cacheGet cache dep.tyName with
    | none => Res.err "resolution cache miss"
    | some dc =>
      resThen (rec dep ctx (vArr (childSource source f)) dc.fields cache log)
        (fun r => incChildrenGo rec ctx rest
          (writeBack source f (toArr r.1)) r.2.1 r.2.2)

/-- `incrementalLoad`, fueled (structurally on the fuel, so that one
recursion level reduces definitionally): a falsy source (note: NOT an
empty array, which is truthy) is a no-op; otherwise run the blocking
initializer if `waitForInit` demands it, start this level's batch
(non-blocking initializer first, then one `requestLoader` per option of
every requested relation with a loader), join it, then descend into each
child dependency. -/
def incLoad (env : Env) :
    Nat → DepNode → Value → Value → Value → Cache → List HashKey →
    Res (Value × Cache × List HashKey)
  | 0 => fun _ _ _ _ _ _ => Res.out
  | Nat.succ fuel2 => fun node ctx source fields cache log =>
    if ¬ truthy source then Res.ok (source, cache, log)
    else
      let gql := schemaFields env.sch node.tyName
      let afterInit :
          Value × Cache × List HashKey × List BTask :=
        match node.init with
        | some ini =>
          if waitForInit env node fields gql then
            let r := requestInitializer node ini ctx source fields cache log
            (r.1, r.2.1, r.2.2, [])
          else (source, cache, log, [BTask.initT ini])
        | none => (source, cache, log, [])
      let scanned := levelScan env node gql (objEntries fields)
      resThen (phaseOne node fields ctx afterInit.2.1
          (afterInit.2.2.2 ++ scanned.2) afterInit.1 afterInit.2.2.1)
        (fun slp =>
          let joined := slp.2.2.foldl
            (fun (sc : Value × Cache) p => runPend sc.1 sc.2 p)
            (slp.1, afterInit.2.1)
          incChildrenGo
            (fun d c s f ca l => incLoad env fuel2 d c s f ca l)
            ctx scanned.1 joined.1 joined.2 slp.2.1)

/-- The empty `{} as ResolutionCacheData` the pre-scan starts a fresh
entry from. -/
def emptyRC : RCData := { fields := vObj [], data := [], calls := [] }

/-- One pre-scan cache-entry update: merge the field subtree into the
entry's fields (shallow `Object.assign`), index the instances into the
entry's data, and install a FRESH empty calls table. -/
def mergeEntry (cache : Cache) (ty : String) (fields source : Value) :
    Cache :=
  let cd := (cacheGet cache ty).getD emptyRC
  cacheSet cache ty
    { fields := objAssign cd.fields fields
      data := makeCachedData source cd.data
      calls := [] }

mutual
/-- `buildResolutionCache` (the pre-scan): merge this level's fields and
instances into this type's entry, then for every requested relation
field merge the child subtree and the reachable child instances into the
child type's entry and recurse into the child node — recursion is driven
by the finite field tree. -/
def buildRC (env : Env) (thisTy : String) (fields source : Value)
    (cache : Cache) : Cache :=
  let gql := schemaFields env.sch thisTy
  let cache1 :=
    if truthy source then mergeEntry cache thisTy fields source else cache
  match fields with
  | vObj fs => buildRCFields env thisTy gql source cache1 fs
  | _ => cache1

/-- The field loop of `buildResolutionCache`. -/
def buildRCFields (env : Env) (thisTy : String)
    (gql : List (String × GField)) (source : Value) (cache : Cache) :
    List (String × Value) → Cache
  | [] => cache
  | (f, v) :: rest =>
    let cache2 :=
      if truthy v then
        match gqlField gql f with
        | some gf =>
          (match depOf env.reg (gqlTypeOf gf) with
           | some dep =>
             let src := childSource source f
             buildRC env dep.tyName v (vArr src)
               (mergeEntry cache dep.tyName v (vArr src))
           | none => cache)
        | none => cache
      else cache
    buildRCFields env thisTy gql source cache2 rest
end

/-- `load(source, context, fields)`: falsy fields are a no-op; otherwise
ensure ids, build the resolution cache, and run the incremental load. -/
def load (env : Env) (fuel : Nat) (node : DepNode)
    (source ctx fields : Value) : Res (Value × Cache × List HashKey) :=
  if ¬ truthy fields then Res.ok (source, [], [])
  else
    let fields2 := ensureIds fields
    let cache := buildRC env node.tyName fields2 source []
    incLoad env fuel node ctx source fields2 cache []

/-- The source returned by a settled run. -/
def resSrc : Res (Value × Cache × List HashKey) → Option Value
  | Res.ok (s, _, _) => some s
  | _ => none

/-- The invocation log of a settled run. -/
def resLog : Res (Value × Cache × List HashKey) → Option (List HashKey)
  | Res.ok (_, _, l) => some l
  | _ => none

/-- The resolution cache of a settled run. -/
def resCache : Res (Value × Cache × List HashKey) → Option Cache
  | Res.ok (_, c, _) => some c
  | _ => none

/- Concrete fixtures: the User/Company schema of the specification's
end-to-end scenario. -/

/-- The scalar `id` field. -/
def fId : GField := { name := "id", type := GType.named "Int" }

/-- The scalar `name` field of `User`. -/
def fName : GField := { name := "name", type := GType.named "String" }

/-- The scalar `ownerId` field of `Company`. -/
def fOwnerId : GField := { name := "ownerId", type := GType.named "Int" }

/-- The relation field `owner: User` of `Company`. -/
def fOwner : GField := { name := "owner", type := GType.named "User" }

/-- The User/Company schema. -/
def schUC : Schema :=
  [("Company", [("id", fId), ("ownerId", fOwnerId), ("owner", fOwner)]),
   ("User", [("id", fId), ("name", fName)])]

/-- The user entity returned by the scenario's loader. -/
def alice : Value := vObj [("id", vNum 7), ("name", vStr "Alice")]

/-- The scenario's User loader: returns `[{id:7, name:'Alice'}]` when
called with `{id:[7]}`, and nothing otherwise. -/
def userLoaderC1 : Loader := fun _ filter _ =>
  if filter = vObj [("id", vArr [vNum 7])] then [alice] else []

/-- `{as: 'owner', filter: {id: ownerId}}`. -/
def ownerOption : DependencyOptions := { as := fOwner, filter := [("id", fOwnerId)] }

/-- The User dependency node with the scenario loader. -/
def nodeUserC1 : DepNode := defineLoader (mkNode "User") userLoaderC1

/-- `Dependency(Company).require(User, () => ownerOption)`. -/
def nodeCompanyC1 : DepNode := require (mkNode "Company") "User" [ownerOption]

/-- The scenario environment. -/
def envC1 : Env :=
  { sch := schUC, reg := [("Company", nodeCompanyC1), ("User", nodeUserC1)] }

/-- The root company `{id:1, ownerId:7}`. -/
def companyC1 : Value := vObj [("id", vNum 1), ("ownerId", vNum 7)]

/-- The requested field tree `{owner: {name: true}}`. -/
def treeC1 : Value := vObj [("owner", vObj [("name", vBool true)])]

/-- The scenario run. -/
def runC1 : Res (Value × Cache × List HashKey) :=
  load envC1 5 nodeCompanyC1 (vArr [companyC1]) vNull treeC1

/- Fixtures for the known-data-skip claims: one company already carries
its owner entity (so the pre-scan caches User 7), a second company with
the same owner re-requests the relation. -/

/-- A company whose owner is already embedded in the source data. -/
def companyKnown : Value :=
  vObj [("id", vNum 1), ("ownerId", vNum 7), ("owner", alice)]

/-- A company with the same owner, not yet resolved. -/
def companyFresh : Value := vObj [("id", vNum 2), ("ownerId", vNum 7)]

/-- A User loader that always returns no rows (its log entries are what
the claims inspect). -/
def emptyUserLoader : Loader := fun _ _ _ => []

/-- User node for the known-data runs. -/
def nodeUserC2 : DepNode := defineLoader (mkNode "User") emptyUserLoader

/-- Environment for the known-data runs. -/
def envC2 : Env :=
  { sch := schUC, reg := [("Company", nodeCompanyC1), ("User", nodeUserC2)] }

/-- The known-data run: every requested owner id is already cached. -/
def runC2 : Res (Value × Cache × List HashKey) :=
  load envC2 5 nodeCompanyC1 (vArr [companyKnown, companyFresh]) vNull treeC1

/- Fixtures for the call-deduplication claim: two relation descriptors
with the SAME filter in one fan-out batch. -/

/-- The relation field `founder: User` of `Company`. -/
def fFounder : GField := { name := "founder", type := GType.named "User" }

/-- Schema where `Company` has two User relations. -/
def schUC2 : Schema :=
  [("Company",
    [("id", fId), ("ownerId", fOwnerId), ("owner", fOwner),
     ("founder", fFounder)]),
   ("User", [("id", fId), ("name", fName)])]

/-- `{as: 'founder', filter: {id: ownerId}}` — identical filter. -/
def founderOption : DependencyOptions :=
  { as := fFounder, filter := [("id", fOwnerId)] }

/-- Company node requiring User twice with an identical filter. -/
def nodeCompanyC5 : DepNode :=
  require (mkNode "Company") "User" [ownerOption, founderOption]

/-- Environment for the deduplication run. -/
def envC5 : Env :=
  { sch := schUC2, reg := [("Company", nodeCompanyC5), ("User", nodeUserC1)] }

/-- The deduplication run: one batch, two occurrences of the same
(type, filter) signature. -/
def runC5 : Res (Value × Cache × List HashKey) :=
  load envC5 5 nodeCompanyC5 (vArr [companyC1]) vNull treeC1

/- Fixtures for the cyclic-registry claim: types A and B mutually
required through fields `b` and `a`; no loaders. -/

/-- The relation field `b: B` of `A`. -/
def fB : GField := { name := "b", type := GType.named "B" }

/-- The relation field `a: A` of `B`. -/
def fA : GField := { name := "a", type := GType.named "A" }

/-- The cyclic schema. -/
def schAB : Schema :=
  [("A", [("id", fId), ("b", fB)]), ("B", [("id", fId), ("a", fA)])]

/-- Node for `A`: requires `B`. -/
def nodeA : DepNode :=
  require (mkNode "A") "B" [{ as := fB, filter := [("id", fId)] }]

/-- Node for `B`: requires `A`. -/
def nodeB : DepNode :=
  require (mkNode "B") "A" [{ as := fA, filter := [("id", fId)] }]

/-- The cyclic environment. -/
def envAB : Env :=
  { sch := schAB, reg := [("A", nodeA), ("B", nodeB)] }

/-- A finite tree of depth 2 into the cycle: `{b: {a: {id: false}}}`. -/
def treeAB : Value :=
  vObj [("b", vObj [("a", vObj [("id", vBool false)])])]

/-- The cyclic run for a given fuel amount. -/
def runAB (fuel : Nat) : Res (Value × Cache × List HashKey) :=
  load envAB fuel nodeA (vArr [vObj [("id", vNum 1)]]) vNull treeAB

/-- The id-ensured cyclic request tree (also the merged `A` cache
fields). -/
def treeABids : Value :=
  vObj [("b", vObj [("a", vObj [("id", vBool false)]), ("id", vBool false)]),
        ("id", vBool false)]

/-- The merged `B` cache fields of the cyclic run. -/
def subBf : Value :=
  vObj [("a", vObj [("id", vBool false)]), ("id", vBool false)]

/-- The pre-scan cache of the cyclic run. -/
def cacheAB : Cache :=
  buildRC envAB "A" (ensureIds treeAB) (vArr [vObj [("id", vNum 1)]]) []

/- Fixtures for the configuration-gap claim: User has a dependency node
but NO loader; User 7 is cached from the first company's embedded
owner. -/

/-- User node with no loader. -/
def nodeUserNoLoader : DepNode := mkNode "User"

/-- Environment with a loaderless User node. -/
def envC8 : Env :=
  { sch := schUC
    reg := [("Company", nodeCompanyC1), ("User", nodeUserNoLoader)] }

/-- The configuration-gap run. -/
def runC8 : Res (Value × Cache × List HashKey) :=
  load envC8 5 nodeCompanyC1 (vArr [companyKnown, companyFresh]) vNull treeC1

/- Fixtures for the monotonic-merge claim: User is reached through two
paths (`owner` and `founder`) whose subtrees select DIFFERENT
sub-selections of the nested `company` relation. -/

/-- The relation field `company: Company` of `User`. -/
def fCompany : GField := { name := "company", type := GType.named "Company" }

/-- Schema where `User` has a `company` relation back to `Company`. -/
def schUC3 : Schema :=
  [("Company",
    [("id", fId), ("ownerId", fOwnerId), ("owner", fOwner),
     ("founder", fFounder)]),
   ("User", [("id", fId), ("name", fName), ("company", fCompany)])]

/-- Environment for the pre-scan merge run. -/
def envC9 : Env :=
  { sch := schUC3, reg := [("Company", nodeCompanyC5), ("User", nodeUserC1)] }

/-- `{owner: {company: {name: true}}, founder: {company: {ownerId: true}}}`:
two paths to User with different `company` sub-selections. -/
def treeC9 : Value :=
  vObj [("owner", vObj [("company", vObj [("name", vBool true)])]),
        ("founder", vObj [("company", vObj [("ownerId", vBool true)])])]

/-- The same request restricted to the first path only. -/
def treeC9owner : Value :=
  vObj [("owner", vObj [("company", vObj [("name", vBool true)])])]

/-- Pre-scan result for the two-path request. -/
def cacheC9 : Cache :=
  buildRC envC9 "Company" (ensureIds treeC9) (vArr [companyC1]) []

/-- Pre-scan result for the one-path request. -/
def cacheC9owner : Cache :=
  buildRC envC9 "Company" (ensureIds treeC9owner) (vArr [companyC1]) []

/- Fixtures for the list-mapping claim. -/

/-- A list-valued destination field `items: [Child]`. -/
def fItems : GField :=
  { name := "items", type := GType.list (GType.named "Child") }

/-- The scalar list field `relatedCompanyIds` (used as a filter source). -/
def fRelatedCompanyIds : GField :=
  { name := "relatedCompanyIds", type := GType.list (GType.named "Int") }

/-- A child whose `relatedCompanyIds` list contains the parent id 7. -/
def childRel : Value :=
  vObj [("id", vNum 9), ("relatedCompanyIds", vArr [vNum 7, vNum 8])]

/-- A parent with id 7. -/
def parentId7 : Value := vObj [("id", vNum 7)]

/-- The claim's relation: list-valued, filter `{relatedCompanyIds: id}`
(match children whose `relatedCompanyIds` relates to the parent's id). -/
def itemsOption : DependencyOptions :=
  { as := fItems, filter := [("relatedCompanyIds", fId)] }

/-- The pre-scan cache of the known-data run (User 7 cached from the
first company's embedded owner). -/
def cacheC2 : Cache :=
  buildRC envC2 "Company" (ensureIds treeC1)
    (vArr [companyKnown, companyFresh]) []

/-- The User cache entry of the known-data run. -/
def dcC2 : RCData := (cacheGet cacheC2 "User").getD emptyRC

/-- The pre-scan cache of the configuration-gap run. -/
def cacheC8 : Cache :=
  buildRC envC8 "Company" (ensureIds treeC1)
    (vArr [companyKnown, companyFresh]) []

/-- The id keys currently cached for a type. -/
def cacheDataKeys (cache : Cache) (ty : String) : List String :=
  keysS (((cacheGet cache ty).getD emptyRC).data)

/-- The top-level merged field names currently cached for a type. -/
def cacheFieldKeys (cache : Cache) (ty : String) : List String :=
  keysS (objEntries (((cacheGet cache ty).getD emptyRC).fields))

/-- The memoized call signatures currently cached for a type. -/
def cacheCallKeys (cache : Cache) (ty : String) : List HashKey :=
  (((cacheGet cache ty).getD emptyRC).calls).map (fun e => e.1)

/-- The Data Mapper matching relation for one filter key, as the
specification words it (§4.5): the child's `dst`-named field matches the
source's `src`-named value by loose equality, or by loose membership
when the source value is itself a collection. -/
def specCfgMatch (item e : Value) (cfg : FromCfg) : Prop :=
  match getF item cfg.src with
  | vArr els => ∃ el ∈ els, jsEq (getF e cfg.dst) el = true
  | v => jsEq (getF e cfg.dst) v = true

/-- The Data Mapper matching relation over all filter keys (§4.5). -/
def specMatch (item e : Value) (from_ : List FromCfg) : Prop :=
  ∀ cfg ∈ from_, specCfgMatch item e cfg

/- Association-map lemmas. -/

theorem keysS_nil : keysS [] = [] := rfl

theorem keysS_cons (k : String) (v : Value) (m : List (String × Value)) :
    keysS ((k, v) :: m) = k :: keysS m := rfl

theorem lookupS_mem_keys {m : List (String × Value)} {k : String}
    {v : Value} (h : lookupS m k = some v) : k ∈ keysS m := by
  induction m with
  | nil => simp [lookupS] at h
  | cons e rest ih =>
    obtain ⟨k1, v1⟩ := e
    rw [keysS_cons, List.mem_cons]
    by_cases hk : k1 = k
    · exact Or.inl hk.symm
    · simp only [lookupS, if_neg hk] at h
      exact Or.inr (ih h)

theorem mem_keys_lookupS {m : List (String × Value)} {k : String}
    (h : k ∈ keysS m) : ∃ v, lookupS m k = some v := by
  induction m with
  | nil => simp [keysS_nil] at h
  | cons e rest ih =>
    obtain ⟨k1, v1⟩ := e
    by_cases hk : k1 = k
    · subst hk; exact ⟨v1, by simp [lookupS]⟩
    · rw [keysS_cons, List.mem_cons] at h
      rcases h with h | h
      · exact absurd h.symm hk
      · obtain ⟨v, hv⟩ := ih h
        exact ⟨v, by simp [lookupS, if_neg hk, hv]⟩

theorem keys_setS_mono {m : List (String × Value)} {k2 : String}
    (key : String) (v : Value) (h : k2 ∈ keysS m) :
    k2 ∈ keysS (setS m key v) := by
  induction m with
  | nil => simp [keysS_nil] at h
  | cons e rest ih =>
    obtain ⟨k1, v1⟩ := e
    rw [keysS_cons, List.mem_cons] at h
    by_cases hk : k1 = key
    · rw [setS, if_pos hk, keysS_cons, List.mem_cons]
      exact h
    · rw [setS, if_neg hk, keysS_cons, List.mem_cons]
      rcases h with h | h
      · exact Or.inl h
      · exact Or.inr (ih h)

theorem keys_foldl_setS_mono {α : Type} (f : α → String) (g : α → Value)
    (l : List α) {k : String} :
    ∀ m : List (String × Value), k ∈ keysS m →
      k ∈ keysS (l.foldl (fun acc x => setS acc (f x) (g x)) m) := by
  induction l with
  | nil => intro m h; simpa using h
  | cons x rest ih =>
    intro m h
    exact ih (setS m (f x) (g x)) (keys_setS_mono (f x) (g x) h)

theorem keys_makeCachedData_mono {m : List (String × Value)} {k : String}
    (source : Value) (h : k ∈ keysS m) :
    k ∈ keysS (makeCachedData source m) := by
  unfold makeCachedData
  split
  · exact keys_foldl_setS_mono (fun item => jsToString (getF item "id"))
      (fun item => item) (toArr source) m h
  · exact h

theorem keys_assignS_mono {t s : List (String × Value)} {k : String}
    (h : k ∈ keysS t) : k ∈ keysS (assignS t s) := by
  unfold assignS
  exact keys_foldl_setS_mono (fun e => e.1) (fun e => e.2) s t h

theorem cacheGet_cacheSet_self (c : Cache) (ty : String) (d : RCData) :
    cacheGet (cacheSet c ty d) ty = some d := by
  induction c with
  | nil => simp [cacheSet, cacheGet]
  | cons e rest ih =>
    obtain ⟨k, w⟩ := e
    by_cases hk : k = ty
    · simp [cacheSet, cacheGet, hk]
    · simp [cacheSet, cacheGet, hk, ih]

theorem cacheGet_cacheSet_ne (c : Cache) (ty ty2 : String) (d : RCData)
    (h : ty2 ≠ ty) : cacheGet (cacheSet c ty d) ty2 = cacheGet c ty2 := by
  induction c with
  | nil =>
    simp only [cacheSet, cacheGet]
    rw [if_neg (Ne.symm h)]
  | cons e rest ih =>
    obtain ⟨k, w⟩ := e
    by_cases hk : k = ty
    · subst hk
      simp only [cacheSet, if_pos rfl, cacheGet]
      rw [if_neg (Ne.symm h), if_neg (Ne.symm h)]
    · by_cases hk2 : k = ty2
      · subst hk2
        simp [cacheSet, cacheGet, hk]
      · simp [cacheSet, cacheGet, hk, hk2, ih]

theorem callsSet_keys_mono
    {calls : List (HashKey × Option (List (String × Value)))}
    {h2 : HashKey} (h : HashKey) (v : Option (List (String × Value)))
    (hm : h2 ∈ calls.map (fun e => e.1)) :
    h2 ∈ (callsSet calls h v).map (fun e => e.1) := by
  induction calls with
  | nil => simp at hm
  | cons e rest ih =>
    obtain ⟨k, w⟩ := e
    rw [List.map_cons, List.mem_cons] at hm
    by_cases hk : k = h
    · rw [callsSet, if_pos hk, List.map_cons, List.mem_cons]
      exact hm
    · rw [callsSet, if_neg hk, List.map_cons, List.mem_cons]
      rcases hm with hm | hm
      · exact Or.inl hm
      · exact Or.inr (ih hm)

/- Data Mapper lemmas. -/

theorem cfgMatch_iff (item e : Value) (cfg : FromCfg) :
    ((match getF item cfg.src with
      | vArr els => els.any (fun el => jsEq (getF e cfg.dst) el)
      | v => jsEq (getF e cfg.dst) v) = true) ↔ specCfgMatch item e cfg := by
  cases hv : getF item cfg.src <;>
    simp [specCfgMatch, hv, List.any_eq_true]

theorem dataMatcher_iff_specMatch {data : List (String × Value)}
    {k : String} {e : Value} (item : Value) (from_ : List FromCfg)
    (hk : lookupS data k = some e) :
    dataMatcher data item from_ k = true ↔ specMatch item e from_ := by
  unfold dataMatcher specMatch
  rw [hk]
  simp only [Option.getD_some, List.all_eq_true]
  constructor
  · intro h cfg hc
    exact (cfgMatch_iff item e cfg).mp (h cfg hc)
  · intro h cfg hc
    exact (cfgMatch_iff item e cfg).mpr (h cfg hc)

theorem mem_mapList_iff (data : List (String × Value)) (item : Value)
    (from_ : List FromCfg) (e : Value) :
    e ∈ mapList data item from_ ↔
      ∃ k, lookupS data k = some e ∧ specMatch item e from_ := by
  unfold mapList
  rw [List.mem_map]
  constructor
  · rintro ⟨k, hk, rfl⟩
    rw [List.mem_filter] at hk
    obtain ⟨hkeys, hmatch⟩ := hk
    obtain ⟨v, hv⟩ := mem_keys_lookupS hkeys
    rw [hv]
    simp only [Option.getD_some]
    exact ⟨k, hv, (dataMatcher_iff_specMatch item from_ hv).mp hmatch⟩
  · rintro ⟨k, hlk, hsm⟩
    refine ⟨k, List.mem_filter.mpr ⟨lookupS_mem_keys hlk, ?_⟩, ?_⟩
    · exact (dataMatcher_iff_specMatch item from_ hlk).mpr hsm
    · rw [hlk]
      rfl

/- waitForInit lemma: an empty trigger-field list never triggers the
blocking branch of the scan. -/

/- Witness fixtures for the memoization and list-mapping theorems. -/

/-- A company whose owner (id 5) is not yet cached. -/
def companyW : Value := vObj [("id", vNum 3), ("ownerId", vNum 5)]

/-- A User cache entry that already memoizes the `{id:[5]}` loader call
signature. -/
def memoUserRC : RCData :=
  { fields := vObj [("name", vBool true), ("id", vBool false)]
    data := [("7", alice)]
    calls := [(hashSig "User" methodLoader (vObj [("id", vArr [vNum 5])]),
               some [])] }

/-- A cache holding `memoUserRC` under User. -/
def memoCache : Cache := [("User", memoUserRC)]

/-- A parent whose `relatedCompanyIds` list holds the ids 9 and 7. -/
def parentList79 : Value :=
  vObj [("id", vNum 1), ("relatedCompanyIds", vArr [vNum 9, vNum 7])]

/-- A child with the scalar id 9. -/
def childScalar9 : Value := vObj [("id", vNum 9)]

/-- The source-side-membership relation: list destination `items`,
filter `{id: relatedCompanyIds}` (child id looked up in the parent's
list). -/
def itemsOptionSrc : DependencyOptions :=
  { as := fItems, filter := [("id", fRelatedCompanyIds)] }

theorem waitScan_empty_triggers (env : Env) (node : DepNode)
    (gql : List (String × GField)) (h : node.initFieldNames = []) :
    ∀ entries, waitScan env node gql entries = false := by
  intro entries
  induction entries with
  | nil => rfl
  | cons e rest ih =>
    obtain ⟨f, v⟩ := e
    simp only [waitScan, h]
    split
    · split
      · split
        · split
          · rfl
          · simp [ih]
        · exact ih
      · exact ih
    · exact ih

/- Claim theorems. -/

/-- C1: End-to-end scenario — with Company requiring User via
`{as: 'owner', filter: {id: ownerId}}`, a single root Company
`{id:1, ownerId:7}`, field tree `{owner: {name: true}}`, and a User
loader answering `{id:[7]}` with `[{id:7, name:'Alice'}]`, the call
`load([company], ctx, tree)` returns the source with `company.owner`
equal to `{id:7, name:'Alice'}`, and the User loader is invoked exactly
once, with filter `{id:[7]}`. -/
theorem c1_end_to_end_scenario :
    resSrc runC1 = some (vArr [vObj [("id", vNum 1), ("ownerId", vNum 7),
      ("owner", alice)]]) ∧
    resLog runC1 =
      some [hashSig "User" methodLoader (vObj [("id", vArr [vNum 7])])] :=
  ⟨rfl, rfl⟩

/-- C2: Idempotent known-data skip — FAILS on the code.  In the run where
every requested owner id (7, for both companies) is already present in
the User cache entry built by the pre-scan, the cached identifier IS
excluded from the call arguments (the claim's second half), but the User
loader is nevertheless invoked once more, with the emptied filter
`{id: []}`, because `isEmptyArg` treats an empty array as truthy and
therefore non-empty. -/
theorem c2_all_ids_cached_loader_still_invoked :
    cacheDataKeys cacheC2 "User" = ["7"] ∧
    makeCallArgs (vArr [companyKnown, companyFresh]) ownerOption.filter
      dcC2.data = some (vObj [("id", vArr [])]) ∧
    resLog runC2 =
      some [hashSig "User" methodLoader (vObj [("id", vArr [])])] :=
  ⟨rfl, rfl, rfl⟩

/-- C3: Empty-filter skip — FAILS on the code.  For the requestLoader
invocation whose built filter is `{id: []}` (every key's argument list
empty), `isEmptyArg` returns false (the `!!filter[prop]` arm catches the
truthy empty array), so instead of skipping the loader and mapping from
cache, the synchronous part of `requestLoader` invokes the loader with
the empty filter. -/
theorem c3_empty_filter_lists_loader_called :
    makeCallArgs (vArr [companyKnown, companyFresh]) ownerOption.filter
      dcC2.data = some (vObj [("id", vArr [])]) ∧
    isEmptyArg (vObj [("id", vArr [])]) = false ∧
    taskStart nodeCompanyC1 (ensureIds treeC1) vNull
      (vArr [companyKnown, companyFresh]) cacheC2
      (BTask.loadT ownerOption nodeUserC2) =
      Res.ok (vArr [companyKnown, companyFresh],
        some (Pend.pendLoad "User" ownerOption
          (hashSig "User" methodLoader (vObj [("id", vArr [])])) []),
        [hashSig "User" methodLoader (vObj [("id", vArr [])])]) :=
  ⟨rfl, rfl, rfl⟩

/-- C4: Conservative initializer blocking default — FAILS on the code.
For EVERY node whose initializer was defined with no trigger fields,
`waitForInit` returns false for every requested field set: the
`!this.initFields` guard never fires (the rest parameter is the truthy
empty array), and an empty trigger list can never intersect a relation
filter.  The claim (and the code's own doc comment) say it should be
treated as blocking. -/
theorem c4_no_trigger_fields_initializer_not_blocking (env : Env)
    (node : DepNode) (ini : Initializer) (fields : Value)
    (gql : List (String × GField)) :
    waitForInit env (defineInitializer node ini []) fields gql = false := by
  show waitScan env (defineInitializer node ini []) gql (objEntries fields)
    = false
  exact waitScan_empty_triggers env _ gql rfl (objEntries fields)

/-- C5 counterexample: two relation descriptors with the identical
filter `{id: ownerId}` in ONE fan-out batch both pass the memo check
before either memo write (each synchronous part runs before any
continuation), so the User loader is invoked TWICE with the identical
normalized signature within one `load()` call. -/
theorem c5_same_batch_identical_signatures_double_invoke :
    resLog runC5 = some
      [hashSig "User" methodLoader (vObj [("id", vArr [vNum 7])]),
       hashSig "User" methodLoader (vObj [("id", vArr [vNum 7])])] :=
  rfl

/-- C5 (amended): a relation occurrence whose (type, filter) signature is
already memoized when its synchronous signature check runs does NOT
re-invoke the loader: `requestLoader` completes synchronously, serving
the mapping from the type's accumulated entity data. -/
theorem c5_memoized_signature_not_reinvoked
    (node dep : DepNode) (fields ctx source : Value)
    (option : DependencyOptions) (cache : Cache) (dc : RCData)
    (filterv : Value) (m : List (String × Value))
    (hdc : cacheGet cache dep.tyName = some dc)
    (hf : makeCallArgs source option.filter dc.data = some filterv)
    (hne : isEmptyArg filterv = false)
    (hm : callsGet dc.calls (hashSig dep.tyName methodLoader filterv) =
      some (some m)) :
    taskStart node fields ctx source cache (BTask.loadT option dep) =
      Res.ok (mapDependencyData source dc.data option, none, []) := by
  simp only [taskStart, hdc, hf, hne, hm]
  simp

/-- C5 witness: the memoized-signature theorem applied at a concrete
memoized cache. -/
theorem c5_memoized_signature_not_reinvoked_witness :
    taskStart nodeCompanyC1 treeC1 vNull (vArr [companyW]) memoCache
      (BTask.loadT ownerOption nodeUserC1) =
      Res.ok (mapDependencyData (vArr [companyW]) memoUserRC.data
        ownerOption, none, []) :=
  c5_memoized_signature_not_reinvoked nodeCompanyC1 nodeUserC1 treeC1
    vNull (vArr [companyW]) ownerOption memoCache memoUserRC
    (vObj [("id", vArr [vNum 5])]) [] rfl rfl rfl rfl

/-- C6 counterexample: a child whose `relatedCompanyIds` list `[7, 8]`
contains the parent's id 7 is NOT matched by the Data Mapper (the
child-side list is compared by loose equality, and `[7,8] == 7` is
false), so the parent's list-valued destination field becomes the empty
array instead of containing that child. -/
theorem c6_child_list_membership_not_matched :
    mapDependencyData (vArr [parentId7]) [("9", childRel)] itemsOption =
      vArr [vObj [("id", vNum 7), ("items", vArr [])]] :=
  rfl

/-- C6 (amended): for a list-valued relation the destination field of
every source instance is assigned exactly the set of loaded entities
matching the Data Mapper relation, where set-membership semantics
applies when the SOURCE-side (parent) filter value is itself a
collection — the child's filter-key field must be loosely equal to the
source value, or to some member when the source value is a list. -/
theorem c6_list_mapping_source_side_set_semantics
    (data : List (String × Value)) (items : List Value)
    (option : DependencyOptions) (hl : isListType option.as = true) :
    mapDependencyData (vArr items) data option =
      vArr (items.map (fun it =>
        setF it option.as.name
          (vArr (mapList data it (fromOf option.filter))))) ∧
    ∀ it e, e ∈ mapList data it (fromOf option.filter) ↔
      ∃ k, lookupS data k = some e ∧
        specMatch it e (fromOf option.filter) := by
  constructor
  · simp [mapDependencyData, hl, truthy]
  · intro it e
    exact mem_mapList_iff data it (fromOf option.filter) e

/-- C6 witness: the amended mapping theorem applied at a parent whose
`relatedCompanyIds` list `[9, 7]` contains the child's id 9. -/
theorem c6_list_mapping_source_side_set_semantics_witness :
    mapDependencyData (vArr [parentList79]) [("9", childScalar9)]
      itemsOptionSrc =
      vArr [setF parentList79 "items"
        (vArr (mapList [("9", childScalar9)] parentList79
          (fromOf itemsOptionSrc.filter)))] ∧
    (childScalar9 ∈ mapList [("9", childScalar9)] parentList79
        (fromOf itemsOptionSrc.filter) ↔
      ∃ k, lookupS [("9", childScalar9)] k = some childScalar9 ∧
        specMatch parentList79 childScalar9
          (fromOf itemsOptionSrc.filter)) :=
  ⟨(c6_list_mapping_source_side_set_semantics [("9", childScalar9)]
      [parentList79] itemsOptionSrc rfl).1,
   (c6_list_mapping_source_side_set_semantics [("9", childScalar9)]
      [parentList79] itemsOptionSrc rfl).2 parentList79 childScalar9⟩

/-- C7: Cyclic type graph termination — FAILS on the code.  With two
mutually-requiring registered types (A requires B via field `b`, B
requires A via field `a`) and the finite depth-2 tree `{b: {a: {}}}`,
`load()` never terminates: `incrementalLoad` recurses with each child
type's MERGED cache fields (which re-introduce the back edge) and the
empty child source `[]` is truthy, so the descent A to B to A never
bottoms out — the run exhausts EVERY fuel amount. -/
theorem c7_cyclic_type_graph_diverges : ∀ fuel, runAB fuel = Res.out := by
  intro n
  cases n with
  | zero => rfl
  | succ m =>
    have key : ∀ k,
        (∀ log, incLoad envAB k nodeA vNull (vArr []) treeABids cacheAB log
          = Res.out) ∧
        (∀ log, incLoad envAB k nodeB vNull (vArr []) subBf cacheAB log
          = Res.out) := by
      intro k
      induction k with
      | zero => exact ⟨fun _ => rfl, fun _ => rfl⟩
      | succ j ih =>
        refine ⟨fun log => ?_, fun log => ?_⟩
        · show resThen
            (incLoad envAB j nodeB vNull (vArr []) subBf cacheAB log) _
            = Res.out
          rw [ih.2 log]; rfl
        · show resThen
            (incLoad envAB j nodeA vNull (vArr []) treeABids cacheAB log) _
            = Res.out
          rw [ih.1 log]; rfl
    show resThen (incLoad envAB m nodeB vNull (vArr []) subBf cacheAB []) _
      = Res.out
    rw [(key m).2 []]; rfl

/-- C8 counterexample: with a User dependency node but NO registered
loader, the run succeeds and skips fetching — but the claimed mapping
does NOT occur: User 7 is in the known data of the pre-scan cache, yet
the second company (whose `ownerId` is 7) comes back without any `owner`
field, because `incrementalLoad` skips `requestLoader` (and with it the
Data Mapper) entirely for loaderless child types. -/
theorem c8_no_loader_mapping_skipped :
    lookupS ((cacheGet cacheC8 "User").getD emptyRC).data "7" = some alice ∧
    resSrc runC8 = some (vArr [companyKnown, companyFresh]) ∧
    hasF companyFresh "owner" = false :=
  ⟨rfl, rfl, rfl⟩

/-- C8 (amended): a requested relation whose child type has a node but
no loader does not fail the load — the relation is skipped for BOTH
fetching and mapping (no loader call is logged, every source instance is
returned unchanged), while recursion still descends through
already-present child data. -/
theorem c8_no_loader_skipped_without_error :
    resLog runC8 = some [] ∧
    resSrc runC8 = some (vArr [companyKnown, companyFresh]) :=
  ⟨rfl, rfl⟩

/-- C9 counterexample: merged fields are NOT monotonic.  When User is
reached through `owner` (selecting `company {name}`) and then through
`founder` (selecting `company {ownerId}`), the second shallow
`Object.assign` REPLACES the `company` subtree: the previously merged
`name` sub-selection is lost from User's cache entry, although the
one-path pre-scan retains it. -/
theorem c9_nested_subselection_lost :
    hasF (getF (((cacheGet cacheC9owner "User").getD emptyRC).fields)
      "company") "name" = true ∧
    hasF (getF (((cacheGet cacheC9 "User").getD emptyRC).fields)
      "company") "name" = false :=
  ⟨rfl, rfl⟩

/-- C9 (amended): every individual cache update the engine performs is
monotonic at the granularity the data structures support: a pre-scan
entry merge only grows a type's entity-id key set and its TOP-LEVEL
merged field-name set (nested subtrees may be replaced), and a resolved
batch continuation only grows the entity-id key set and the memoized
call-signature set. -/
theorem c9_per_update_key_growth :
    (∀ cache ty fields source ty2 k, k ∈ cacheDataKeys cache ty2 →
      k ∈ cacheDataKeys (mergeEntry cache ty fields source) ty2) ∧
    (∀ cache ty fields source ty2 k, k ∈ cacheFieldKeys cache ty2 →
      k ∈ cacheFieldKeys (mergeEntry cache ty fields source) ty2) ∧
    (∀ source cache p ty2 k, k ∈ cacheDataKeys cache ty2 →
      k ∈ cacheDataKeys (runPend source cache p).2 ty2) ∧
    (∀ source cache p ty2 h2, h2 ∈ cacheCallKeys cache ty2 →
      h2 ∈ cacheCallKeys (runPend source cache p).2 ty2) := by
  refine ⟨?_, ?_, ?_, ?_⟩
  · intro cache ty fields source ty2 k hk
    by_cases h : ty2 = ty
    · subst h
      unfold mergeEntry
      unfold cacheDataKeys at hk ⊢
      rw [cacheGet_cacheSet_self]
      exact keys_makeCachedData_mono source hk
    · unfold mergeEntry
      unfold cacheDataKeys at hk ⊢
      rw [cacheGet_cacheSet_ne _ _ _ _ h]
      exact hk
  · intro cache ty fields source ty2 k hk
    by_cases h : ty2 = ty
    · subst h
      unfold mergeEntry
      unfold cacheFieldKeys at hk ⊢
      rw [cacheGet_cacheSet_self]
      cases hcf : (((cacheGet cache ty2).getD emptyRC).fields) with
      | vObj fs =>
        rw [hcf] at hk
        cases fields with
        | vObj gs => exact keys_assignS_mono hk
        | vNull => exact hk
        | vNum n => exact hk
        | vStr s => exact hk
        | vBool b => exact hk
        | vArr xs => exact hk
      | vNull => rw [hcf] at hk; simp [objEntries, keysS] at hk
      | vNum n => rw [hcf] at hk; simp [objEntries, keysS] at hk
      | vStr s => rw [hcf] at hk; simp [objEntries, keysS] at hk
      | vBool b => rw [hcf] at hk; simp [objEntries, keysS] at hk
      | vArr xs => rw [hcf] at hk; simp [objEntries, keysS] at hk
    · unfold mergeEntry
      unfold cacheFieldKeys at hk ⊢
      rw [cacheGet_cacheSet_ne _ _ _ _ h]
      exact hk
  · intro source cache p ty2 k hk
    cases p with
    | pendLoad depTy option h rows =>
      cases hg : cacheGet cache depTy with
      | none => simp only [runPend, hg]; exact hk
      | some dc =>
        by_cases hty : ty2 = depTy
        · subst hty
          simp only [runPend, hg]
          unfold cacheDataKeys at hk ⊢
          rw [cacheGet_cacheSet_self]
          rw [hg] at hk
          exact keys_assignS_mono hk
        · simp only [runPend, hg]
          unfold cacheDataKeys at hk ⊢
          rw [cacheGet_cacheSet_ne _ _ _ _ hty]
          exact hk
    | pendInit ty h res =>
      cases hg : cacheGet cache ty with
      | none => simp only [runPend, hg]; exact hk
      | some tc =>
        by_cases hty : ty2 = ty
        · subst hty
          simp only [runPend, hg]
          unfold cacheDataKeys at hk ⊢
          rw [cacheGet_cacheSet_self]
          rw [hg] at hk
          exact hk
        · simp only [runPend, hg]
          unfold cacheDataKeys at hk ⊢
          rw [cacheGet_cacheSet_ne _ _ _ _ hty]
          exact hk
  · intro source cache p ty2 h2 hk
    cases p with
    | pendLoad depTy option h rows =>
      cases hg : cacheGet cache depTy with
      | none => simp only [runPend, hg]; exact hk
      | some dc =>
        by_cases hty : ty2 = depTy
        · subst hty
          simp only [runPend, hg]
          unfold cacheCallKeys at hk ⊢
          rw [cacheGet_cacheSet_self]
          rw [hg] at hk
          exact callsSet_keys_mono _ _ hk
        · simp only [runPend, hg]
          unfold cacheCallKeys at hk ⊢
          rw [cacheGet_cacheSet_ne _ _ _ _ hty]
          exact hk
    | pendInit ty h res =>
      cases hg : cacheGet cache ty with
      | none => simp only [runPend, hg]; exact hk
      | some tc =>
        by_cases hty : ty2 = ty
        · subst hty
          simp only [runPend, hg]
          unfold cacheCallKeys at hk ⊢
          rw [cacheGet_cacheSet_self]
          rw [hg] at hk
          exact callsSet_keys_mono _ _ hk
        · simp only [runPend, hg]
          unfold cacheCallKeys at hk ⊢
          rw [cacheGet_cacheSet_ne _ _ _ _ hty]
          exact hk

/-- C9 witness: the per-update growth theorem applied at a concrete
entry merge. -/
theorem c9_per_update_key_growth_witness :
    "7" ∈ cacheDataKeys (mergeEntry memoCache "User" (vObj [])
      (vObj [("id", vNum 3)])) "User" :=
  c9_per_update_key_growth.1 memoCache "User" (vObj [])
    (vObj [("id", vNum 3)]) "User" "7" (by decide)

/-- C10: whenever the initializer returned a result map, the merge loop
of `requestInitializer` leaves every source entity whose `id` field is
falsy (absent, 0, empty string, null) entirely unmodified, even if the
result map contains an entry whose key corresponds to that entity. -/
theorem c10_falsy_id_entity_unmodified (m : List (String × Value))
    (items : List Value) (i : Nat) (hi : i < items.length)
    (hfalsy : truthy (getF items[i] "id") = false) :
    (toArr (mergeInitData (some m) (vArr items)))[i]? = some items[i] := by
  show (items.map (initMergeStep m))[i]? = some items[i]
  rw [List.getElem?_map, List.getElem?_eq_getElem hi]
  have hstep : initMergeStep m items[i] = items[i] := by
    unfold initMergeStep
    rw [hfalsy, Bool.and_false, if_neg (by simp)]
  simp [hstep]

/-- C10 witness: an entity with the falsy id 0 is untouched even though
the initializer result map holds an entry under the key "0". -/
theorem c10_falsy_id_entity_unmodified_witness :
    (toArr (mergeInitData (some [("0", vObj [("extra", vNum 99)])])
      (vArr [vObj [("id", vNum 0)]])))[0]? =
      some (vObj [("id", vNum 0)]) :=
  c10_falsy_id_entity_unmodified [("0", vObj [("extra", vNum 99)])]
    [vObj [("id", vNum 0)]] 0 (by decide) (by rfl)

end GD
